import Mathlib

/-!
Verification development for the TaskFly deployment control plane.

The definitions below are a shallow embedding of the Go sources:
  * `internal/state/store.go`      — the in-memory state store,
  * `internal/metadata/simple.go`  — per-node config materialisation,
  * `internal/orchestrator/engine.go` — bundle extraction and provisioning,
  * the daemon HTTP handlers (`registerNode`, `nodeHeartbeat`,
    `updateNodeStatus`, `getDeploymentLogs`, …).

Go maps are modelled as association lists with lookup-first / replace-in-place
semantics; `time.Time` is modelled as a `Nat` tick (`0` is the zero time, so
`IsZero` becomes `= 0` and `Before` becomes `<`); Go functions returning
`error` become `Except String`.  Mutation through shared pointers (the store
keeps `nodes` keyed by id and `nodesByDep` holding pointers into the same
objects) is modelled by keying `nodesByDep` with node ids and reading through
the `nodes` map, which is observationally equivalent.
-/

/-- Go `float64` values carried by configs and metrics.  The embedded code
never computes with them (it only stores them and renders them with `%g`), so
they are carried as their rendered text. -/
def GoFloat := String

instance : DecidableEq GoFloat := fun a b => (inferInstance : DecidableEq String) a b

/-- Dynamic values held in `map[string]interface{}` configuration maps. -/
inductive GoValue where
  | str : String → GoValue
  | int : Int → GoValue
  | float : GoFloat → GoValue
  | bool : Bool → GoValue
  | list : List GoValue → GoValue
  | map : List (String × GoValue) → GoValue

/-- The simple types admitted in distributed lists
(`string, int, int64, float64, bool` in `simple.go`). -/
def isSimpleValue : GoValue → Bool
  | .str _ => true
  | .int _ => true
  | .float _ => true
  | .bool _ => true
  | _ => false

/-- First-match lookup in an association list (Go map read). -/
def lookupA {α : Type} : List (String × α) → String → Option α
  | [], _ => none
  | kv :: rest, k => if kv.1 = k then some kv.2 else lookupA rest k

/-- Go map write: replace the binding in place if the key is present,
otherwise append. -/
def insertA {α : Type} : List (String × α) → String → α → List (String × α)
  | [], k, v => [(k, v)]
  | kv :: rest, k, v => if kv.1 = k then (k, v) :: rest else kv :: insertA rest k v

/-- Go map delete. -/
def eraseA {α : Type} : List (String × α) → String → List (String × α)
  | [], _ => []
  | kv :: rest, k => if kv.1 = k then eraseA rest k else kv :: eraseA rest k

-- Deployment statuses (`state.DeploymentStatus`, a string type in Go).
def statusPending : String := "pending"
def statusProvisioning : String := "provisioning"
def statusRunning : String := "running"
def statusCompleted : String := "completed"
def statusFailed : String := "failed"
def statusTerminating : String := "terminating"
def statusTerminated : String := "terminated"

-- Node statuses (`state.NodeStatus`, a string type in Go).
def nodeStatusPending : String := "pending"
def nodeStatusProvisioning : String := "provisioning"
def nodeStatusBooting : String := "booting"
def nodeStatusRegistering : String := "registering"
def nodeStatusDownloading : String := "downloading_assets"
def nodeStatusRunning : String := "running"
def nodeStatusCompleted : String := "completed"
def nodeStatusFailed : String := "failed"
def nodeStatusTerminating : String := "terminating"
def nodeStatusTerminated : String := "terminated"

/-- Terminal deployment statuses (spec §3: {completed, failed, terminated}). -/
def isDeploymentTerminal (st : String) : Bool :=
  st == statusCompleted || st == statusFailed || st == statusTerminated

/-- Terminal node statuses. -/
def isNodeTerminal (st : String) : Bool :=
  st == nodeStatusCompleted || st == nodeStatusFailed || st == nodeStatusTerminated

/-- `state.LogEntry`. -/
structure LogEntry where
  timestamp : Nat
  nodeID : String
  deploymentID : String
  message : String
  stream : String
deriving DecidableEq

/-- `state.SystemMetrics`. -/
structure SystemMetrics where
  cpuCores : Int
  cpuUsage : GoFloat
  memoryTotal : Nat
  memoryUsed : Nat
  loadAvg1 : GoFloat
  loadAvg5 : GoFloat
  loadAvg15 : GoFloat
  timestamp : Nat
deriving DecidableEq

/-- `state.Node`. -/
structure Node where
  nodeID : String
  nodeIndex : Nat
  deploymentID : String
  status : String
  ipAddress : String
  instanceID : String
  config : List (String × GoValue)
  provisionToken : String
  authToken : String
  shouldShutdown : Bool
  lastUpdate : Nat
  errorMessage : String
  metrics : Option SystemMetrics

/-- `state.Deployment`. -/
structure Deployment where
  id : String
  status : String
  cloudProvider : String
  totalNodes : Int
  nodesCompleted : Int
  nodesFailed : Int
  bundlePath : String
  config : List (String × GoValue)
  createdAt : Nat
  updatedAt : Nat
  completedAt : Option Nat
  errorMessage : String

/-- `state.Store` (the in-memory implementation). -/
structure Store where
  deployments : List (String × Deployment)
  nodes : List (String × Node)
  nodesByDep : List (String × List String)
  logs : List (String × List LogEntry)
  maxLogsPerDeployment : Nat

/-- `state.NewStore`. -/
def newStore : Store :=
  { deployments := []
    nodes := []
    nodesByDep := []
    logs := []
    maxLogsPerDeployment := 10000 }

/-- `Store.CreateDeployment`. -/
def createDeployment (s : Store) (d : Deployment) (now : Nat) : Except String Store :=
  if (lookupA s.deployments d.id).isSome then
    .error ("deployment " ++ d.id ++ " already exists")
  else
    let d := { d with createdAt := now, updatedAt := now }
    .ok { s with
            deployments := insertA s.deployments d.id d
            nodesByDep := insertA s.nodesByDep d.id [] }

/-- `Store.CreateNode`. -/
def createNode (s : Store) (n : Node) (now : Nat) : Except String Store :=
  if (lookupA s.nodes n.nodeID).isSome then
    .error ("node " ++ n.nodeID ++ " already exists")
  else
    let n := { n with lastUpdate := now }
    .ok { s with
            nodes := insertA s.nodes n.nodeID n
            nodesByDep := insertA s.nodesByDep n.deploymentID
              ((lookupA s.nodesByDep n.deploymentID).getD [] ++ [n.nodeID]) }

/-- `Store.GetDeployment` (the store returns a copy; in the pure model the
copy is the value itself). -/
def getDeployment (s : Store) (deploymentID : String) : Except String Deployment :=
  match lookupA s.deployments deploymentID with
  | none => .error ("deployment " ++ deploymentID ++ " not found")
  | some d => .ok d

/-- `Store.UpdateDeploymentStatus`. -/
def updateDeploymentStatus (s : Store) (deploymentID status : String)
    (errorMessage : Option String) (now : Nat) : Except String Store :=
  match lookupA s.deployments deploymentID with
  | none => .error ("deployment " ++ deploymentID ++ " not found")
  | some d =>
    let d := { d with status := status, updatedAt := now }
    let d := match errorMessage with
             | some m => { d with errorMessage := m }
             | none => d
    let d := if status == statusCompleted || status == statusFailed
                || status == statusTerminated then
               { d with completedAt := some now }
             else d
    .ok { s with deployments := insertA s.deployments deploymentID d }

/-- `Store.checkDeploymentCompletion` (private helper, called with the lock
held from `UpdateNodeStatus`). -/
def checkDeploymentCompletion (s : Store) (deploymentID : String) (now : Nat) : Store :=
  match lookupA s.deployments deploymentID with
  | none => s
  | some dep =>
    let nodes := ((lookupA s.nodesByDep deploymentID).getD []).filterMap
                   (fun nid => lookupA s.nodes nid)
    let completed := (nodes.filter (fun n => n.status == nodeStatusCompleted)).length
    let failed := (nodes.filter (fun n => n.status == nodeStatusFailed)).length
    let running := (nodes.filter (fun n => n.status == nodeStatusRunning)).length
    let other := nodes.length - completed - failed - running
    let dep := { dep with
                   nodesCompleted := (completed : Int)
                   nodesFailed := (failed : Int)
                   updatedAt := now }
    let dep :=
      if (completed : Int) + (failed : Int) == dep.totalNodes then
        { dep with
            status := if failed > 0 then statusFailed else statusCompleted
            completedAt := some now }
      else if running > 0 || other > 0 then
        if dep.status == statusProvisioning then
          { dep with status := statusRunning }
        else dep
      else dep
    { s with deployments := insertA s.deployments deploymentID dep }

/-- `Store.UpdateNodeStatus` (unconditional write followed by the completion
summary). -/
def updateNodeStatus (s : Store) (deploymentID nodeID status : String)
    (errorMessage : Option String) (now : Nat) : Except String Store :=
  match lookupA s.nodes nodeID with
  | none => .error ("node " ++ nodeID ++ " not found")
  | some n =>
    if n.deploymentID ≠ deploymentID then
      .error ("node " ++ nodeID ++ " does not belong to deployment " ++ deploymentID)
    else
      let n := { n with status := status, lastUpdate := now }
      let n := match errorMessage with
               | some m => { n with errorMessage := m }
               | none => n
      let s := { s with nodes := insertA s.nodes nodeID n }
      .ok (checkDeploymentCompletion s deploymentID now)

/-- `Store.UpdateNodeAuthToken`. -/
def updateNodeAuthToken (s : Store) (deploymentID nodeID authToken : String)
    (now : Nat) : Except String Store :=
  match lookupA s.nodes nodeID with
  | none => .error ("node " ++ nodeID ++ " not found")
  | some n =>
    if n.deploymentID ≠ deploymentID then
      .error ("node " ++ nodeID ++ " does not belong to deployment " ++ deploymentID)
    else
      let n := { n with authToken := authToken, lastUpdate := now }
      .ok { s with nodes := insertA s.nodes nodeID n }

/-- `Store.UpdateNodeLastSeen`. -/
def updateNodeLastSeen (s : Store) (deploymentID nodeID : String)
    (now : Nat) : Except String Store :=
  match lookupA s.nodes nodeID with
  | none => .error ("node " ++ nodeID ++ " not found")
  | some n =>
    if n.deploymentID ≠ deploymentID then
      .error ("node " ++ nodeID ++ " does not belong to deployment " ++ deploymentID)
    else
      .ok { s with nodes := insertA s.nodes nodeID { n with lastUpdate := now } }

/-- `Store.UpdateNodeMessage`. -/
def updateNodeMessage (s : Store) (deploymentID nodeID message : String)
    (now : Nat) : Except String Store :=
  match lookupA s.nodes nodeID with
  | none => .error ("node " ++ nodeID ++ " not found")
  | some n =>
    if n.deploymentID ≠ deploymentID then
      .error ("node " ++ nodeID ++ " does not belong to deployment " ++ deploymentID)
    else
      let n := { n with errorMessage := message, lastUpdate := now }
      .ok { s with nodes := insertA s.nodes nodeID n }

/-- `Store.UpdateNodeInstanceInfo`. -/
def updateNodeInstanceInfo (s : Store) (deploymentID nodeID instanceID ipAddress : String)
    (now : Nat) : Except String Store :=
  match lookupA s.nodes nodeID with
  | none => .error ("node " ++ nodeID ++ " not found")
  | some n =>
    if n.deploymentID ≠ deploymentID then
      .error ("node " ++ nodeID ++ " does not belong to deployment " ++ deploymentID)
    else
      let n := { n with instanceID := instanceID, ipAddress := ipAddress, lastUpdate := now }
      .ok { s with nodes := insertA s.nodes nodeID n }

/-- `Store.MarkNodeForShutdown`. -/
def markNodeForShutdown (s : Store) (deploymentID nodeID : String)
    (now : Nat) : Except String Store :=
  match lookupA s.nodes nodeID with
  | none => .error ("node " ++ nodeID ++ " not found")
  | some n =>
    if n.deploymentID ≠ deploymentID then
      .error ("node " ++ nodeID ++ " does not belong to deployment " ++ deploymentID)
    else
      let n := { n with shouldShutdown := true, lastUpdate := now }
      .ok { s with nodes := insertA s.nodes nodeID n }

/-- `Store.UpdateNodeMetrics` (stamps the metrics timestamp with now). -/
def updateNodeMetrics (s : Store) (deploymentID nodeID : String)
    (metrics : SystemMetrics) (now : Nat) : Except String Store :=
  match lookupA s.nodes nodeID with
  | none => .error ("node " ++ nodeID ++ " not found")
  | some n =>
    if n.deploymentID ≠ deploymentID then
      .error ("node " ++ nodeID ++ " does not belong to deployment " ++ deploymentID)
    else
      let n := { n with metrics := some { metrics with timestamp := now }, lastUpdate := now }
      .ok { s with nodes := insertA s.nodes nodeID n }

/-- `Store.FindNodeByAuthToken`: scan all deployments, then that deployment's
nodes in `nodesByDep`, returning the first node whose stored auth token
matches. -/
def findNodeByAuthToken (s : Store) (authToken : String) : Option (Node × Deployment) :=
  s.deployments.findSome? (fun kv =>
    match lookupA s.nodesByDep kv.2.id with
    | none => none
    | some ids =>
      ((ids.filterMap (fun nid => lookupA s.nodes nid)).find?
          (fun n => n.authToken == authToken)).map (fun n => (n, kv.2)))

/-- `Store.DeleteDeployment`: removes the deployment and its nodes.  Note the
source does not touch `s.logs`. -/
def deleteDeployment (s : Store) (deploymentID : String) : Except String Store :=
  if (lookupA s.deployments deploymentID).isNone then
    .error ("deployment " ++ deploymentID ++ " not found")
  else
    let s :=
      match lookupA s.nodesByDep deploymentID with
      | none => s
      | some ids =>
        { s with
            nodes := ids.foldl (fun m nid => eraseA m nid) s.nodes
            nodesByDep := eraseA s.nodesByDep deploymentID }
    .ok { s with deployments := eraseA s.deployments deploymentID }

/-- The `total_logs` figure of `Store.GetStats`. -/
def statsTotalLogs (s : Store) : Nat :=
  s.logs.foldl (fun acc kv => acc + kv.2.length) 0

/-- `Store.AppendLogs`: append, then trim to the newest
`maxLogsPerDeployment` entries. -/
def appendLogs (s : Store) (deploymentID : String) (logs : List LogEntry) :
    Except String Store :=
  if (lookupA s.deployments deploymentID).isNone then
    .error ("deployment " ++ deploymentID ++ " not found")
  else
    let existing := (lookupA s.logs deploymentID).getD []
    let combined := existing ++ logs
    let trimmed :=
      if combined.length > s.maxLogsPerDeployment then
        combined.drop (combined.length - s.maxLogsPerDeployment)
      else combined
    .ok { s with logs := insertA s.logs deploymentID trimmed }

/-- The per-entry filter of `Store.GetLogs`: skip entries from other nodes
when a node filter is given, and entries strictly before since when since
is non-zero. -/
def logMatches (nodeID : String) (since : Nat) (e : LogEntry) : Bool :=
  !(nodeID != "" && e.nodeID != nodeID) && !(since != 0 && e.timestamp < since)

/-- `Store.GetLogs`. -/
def getLogs (s : Store) (deploymentID nodeID : String) (since : Nat)
    (limit : Int) : Except String (List LogEntry) :=
  if (lookupA s.deployments deploymentID).isNone then
    .error ("deployment " ++ deploymentID ++ " not found")
  else
    let allLogs := (lookupA s.logs deploymentID).getD []
    let filtered := allLogs.filter (logMatches nodeID since)
    let filtered :=
      if limit > 0 && (filtered.length : Int) > limit then
        filtered.drop (filtered.length - limit.toNat)
      else filtered
    .ok filtered

/-- `Store.ClearLogs` (defined in the source but never called anywhere). -/
def clearLogs (s : Store) (deploymentID : String) : Except String Store :=
  .ok { s with logs := eraseA s.logs deploymentID }

/-- Go error results that the daemon handlers log and otherwise ignore
(`store.UpdateNodeLastSeen(...)` with the error discarded): on error the
store is left as it was. -/
def tryOp (s : Store) (r : Except String Store) : Store :=
  match r with
  | .ok s2 => s2
  | .error _ => s

/-- Result of `POST /api/v1/nodes/register` (`registerNode` in the daemon). -/
inductive RegisterResponse where
  | ok (authToken deploymentID nodeID : String)
  | unauthorized (msg : String)
  | serverError (msg : String)
deriving DecidableEq

/-- The scan of `registerNode`: iterate `GetAllDeployments`, then
`GetNodesByDeployment`, returning the first node whose `ProvisionToken`
matches the request. -/
def findNodeByProvisionToken (s : Store) (tok : String) : Option (Node × Deployment) :=
  s.deployments.findSome? (fun kv =>
    match lookupA s.nodesByDep kv.2.id with
    | none => none
    | some ids =>
      ((ids.filterMap (fun nid => lookupA s.nodes nid)).find?
          (fun n => n.provisionToken == tok)).map (fun n => (n, kv.2)))

/-- Daemon handler `registerNode`.  Note: the handler neither clears the
node's provision token nor checks the node's current status before
re-issuing credentials. -/
def registerNode (s : Store) (provisionToken : String) (now : Nat) :
    RegisterResponse × Store :=
  match findNodeByProvisionToken s provisionToken with
  | none => (.unauthorized "Invalid provision token", s)
  | some (node, dep) =>
    let authToken := "auth-" ++ node.nodeID
    match updateNodeAuthToken s dep.id node.nodeID authToken now with
    | .error _ => (.serverError "Failed to update node auth token", s)
    | .ok s1 =>
      match updateNodeStatus s1 dep.id node.nodeID nodeStatusRegistering none now with
      | .error _ => (.serverError "Failed to update node status", s1)
      | .ok s2 => (.ok authToken dep.id node.nodeID, s2)

/-- Body of the 200 reply of `POST /api/v1/nodes/heartbeat`. -/
structure HeartbeatBody where
  status : String
  shutdown : Bool
deriving DecidableEq

/-- Result of `POST /api/v1/nodes/heartbeat`. -/
inductive HeartbeatResponse where
  | ok (body : HeartbeatBody)
  | unauthorized (msg : String)
deriving DecidableEq

/-- Daemon handler `nodeHeartbeat` (after bearer extraction): store metrics
when present, bump last-seen, and promote the node to `running` unless the
snapshot status is already `running` or terminal.  The reply carries the
snapshot's `ShouldShutdown`. -/
def nodeHeartbeat (s : Store) (authToken : String) (metrics : Option SystemMetrics)
    (now : Nat) : HeartbeatResponse × Store :=
  match findNodeByAuthToken s authToken with
  | none => (.unauthorized "Invalid auth token", s)
  | some (node, dep) =>
    let s := match metrics with
             | some m => tryOp s (updateNodeMetrics s dep.id node.nodeID m now)
             | none => s
    let s := tryOp s (updateNodeLastSeen s dep.id node.nodeID now)
    let s :=
      if node.status != nodeStatusRunning &&
         node.status != nodeStatusCompleted &&
         node.status != nodeStatusFailed &&
         node.status != nodeStatusTerminated then
        tryOp s (updateNodeStatus s dep.id node.nodeID nodeStatusRunning none now)
      else s
    (.ok { status := "ok", shutdown := node.shouldShutdown }, s)

/-- Result of `POST /api/v1/nodes/status`. -/
inductive StatusUpdateResponse where
  | ok
  | unauthorized (msg : String)
  | serverError (msg : String)
deriving DecidableEq

/-- Daemon handler `updateNodeStatus` (after bearer extraction): applies the
requested status through the store unconditionally, then the optional
message. -/
def updateNodeStatusHandler (s : Store) (authToken reqStatus reqMessage : String)
    (now : Nat) : StatusUpdateResponse × Store :=
  match findNodeByAuthToken s authToken with
  | none => (.unauthorized "Invalid auth token", s)
  | some (node, dep) =>
    match updateNodeStatus s dep.id node.nodeID reqStatus none now with
    | .error _ => (.serverError "Failed to update node status", s)
    | .ok s1 =>
      let s1 := if reqMessage != "" then
                  tryOp s1 (updateNodeMessage s1 dep.id node.nodeID reqMessage now)
                else s1
      (.ok, s1)

/-- Result of `GET /api/v1/deployments/:id/logs`. -/
inductive LogsResponse where
  | ok (logs : List LogEntry)
  | notFound (msg : String)
deriving DecidableEq

/-- Daemon handler `getDeploymentLogs`: `limit` defaults to 1000 when the
query parameter is absent (or not parseable by `Sscanf`); `since` defaults to
the zero time. -/
def getDeploymentLogs (s : Store) (id nodeID : String) (sinceParam : Option Nat)
    (limitParam : Option Int) : LogsResponse :=
  let since := sinceParam.getD 0
  let limit := limitParam.getD 1000
  match getLogs s id nodeID since limit with
  | .error _ => .notFound "Deployment not found"
  | .ok logs => .ok logs

/-- Instance information returned by a compute backend (`cloud.InstanceInfo`
as used by `provisionSingleNode`). -/
structure InstanceInfo where
  instanceID : String
  ipAddress : String
deriving DecidableEq

/-- Orchestrator `provisionSingleNode`, with the backend call abstracted as
its result (`provisionResult`): provisioning status, then on success the
instance info and `booting` (plus `registering` for the local provider), on
failure `failed` with the backend error.  Store errors are discarded as in
the source. -/
def provisionSingleNode (s : Store) (node : Node)
    (provisionResult : Except String InstanceInfo) (isLocal : Bool)
    (now : Nat) : Store :=
  let s := tryOp s (updateNodeStatus s node.deploymentID node.nodeID
                      nodeStatusProvisioning none now)
  match provisionResult with
  | .error msg =>
    tryOp s (updateNodeStatus s node.deploymentID node.nodeID
               nodeStatusFailed (some msg) now)
  | .ok info =>
    let s := tryOp s (updateNodeInstanceInfo s node.deploymentID node.nodeID
                        info.instanceID info.ipAddress now)
    let s := tryOp s (updateNodeStatus s node.deploymentID node.nodeID
                        nodeStatusBooting none now)
    if isLocal then
      tryOp s (updateNodeStatus s node.deploymentID node.nodeID
                 nodeStatusRegistering none now)
    else s

/-- Orchestrator `TerminateDeployment`: `terminating`, every node of the
deployment `terminated`, then the deployment `terminated`.  (File cleanup
happens later in a background task and does not touch the store.) -/
def terminateDeployment (s : Store) (deploymentID : String) (now : Nat) :
    Except String Store :=
  match updateDeploymentStatus s deploymentID statusTerminating none now with
  | .error e => .error e
  | .ok s1 =>
    match lookupA s1.nodesByDep deploymentID with
    | none => .error ("deployment " ++ deploymentID ++ " not found")
    | some ids =>
      let snapshot := ids.filterMap (fun nid => lookupA s1.nodes nid)
      let s2 := snapshot.foldl
        (fun acc n =>
          tryOp acc (updateNodeStatus acc n.deploymentID n.nodeID
                       nodeStatusTerminated none now))
        s1
      match updateDeploymentStatus s2 deploymentID statusTerminated none now with
      | .error e => .error e
      | .ok s3 => .ok s3

/-- `metadata.NodeConfig`. -/
structure NodeConfig where
  nodeID : String
  nodeIndex : Nat
  totalNodes : Int
  deploymentID : String
  config : List (String × GoValue)

/-- `metadata.NodesConfig` (the `nodes:` block of `taskfly.yml`). -/
structure NodesConfig where
  count : Int
  globalMetadata : List (String × GoValue)
  distributedLists : List (String × List GoValue)
  configTemplate : List (String × GoValue)

/-- `metadata.ValidateNodesConfig`. -/
def ValidateNodesConfig (cfg : NodesConfig) : Except String Unit :=
  if cfg.count ≤ 0 then .error "nodes count must be greater than 0"
  else
    match cfg.distributedLists.find? (fun kv => kv.2.length == 0) with
    | some kv => .error ("distributed list '" ++ kv.1 ++ "' cannot be empty")
    | none => .ok ()

/-- The collection loop of `GenerateNodeConfigs`:
`for itemIndex := i; itemIndex < len(listItems); itemIndex += count`,
checking each collected item is a simple type.  The source loop advances by
`count ≥ 1` (guaranteed by `ValidateNodesConfig`, which runs first), so it
performs at most `items.length` iterations; the `fuel` argument, instantiated
with `items.length`, makes the recursion structural without changing the
computed value on those calls. -/
def collectStrideChecked (listName : String) (items : List GoValue) (count : Nat) :
    Nat → Nat → Except String (List GoValue)
  | 0, _ => .ok []
  | fuel + 1, idx =>
    if h : idx < items.length then
      let item := items.get ⟨idx, h⟩
      if isSimpleValue item then
        match collectStrideChecked listName items count fuel (idx + count) with
        | .error e => .error e
        | .ok rest => .ok (item :: rest)
      else
        .error ("distributed list '" ++ listName ++ "' contains complex type")
    else .ok []

/-- The `%d` / `%g` / `%t` / identity renderings used by
`processSimpleTemplate` for simple values embedded in strings (none for
lists and maps, which the source switch does not replace). -/
def renderSimple : GoValue → Option String
  | .str s => some s
  | .int i => some (toString i)
  | .float f => some f
  | .bool b => some (if b then "true" else "false")
  | _ => none

/-- The `for key, val := range nodeConfig.Config` loop of
`processSimpleTemplate`: an early return of the raw value when the whole
string equals the placeholder, otherwise textual replacement. -/
def substConfigValues : List (String × GoValue) → String → GoValue
  | [], result => .str result
  | (key, val) :: rest, result =>
    let placeholder := "\x7b" ++ key ++ "\x7d"
    if result == placeholder then val
    else
      let result := match renderSimple val with
                    | some r => result.replace placeholder r
                    | none => result
      substConfigValues rest result

mutual

/-- `metadata.processSimpleTemplate`. -/
def processSimpleTemplate : GoValue → NodeConfig → GoValue
  | .str v, nc =>
    let result := v.replace "\x7bnode_id\x7d" nc.nodeID
    let result := result.replace "\x7bnode_index\x7d" (toString nc.nodeIndex)
    let result := result.replace "\x7btotal_nodes\x7d" (toString nc.totalNodes)
    let result := result.replace "\x7bdeployment_id\x7d" nc.deploymentID
    substConfigValues nc.config result
  | .map m, nc => .map (processTemplateMap m nc)
  | .list l, nc => .list (processTemplateList l nc)
  | v, _ => v

/-- The recursion of `processSimpleTemplate` into slice values. -/
def processTemplateList : List GoValue → NodeConfig → List GoValue
  | [], _ => []
  | v :: rest, nc => processSimpleTemplate v nc :: processTemplateList rest nc

/-- The recursion of `processSimpleTemplate` into map values. -/
def processTemplateMap : List (String × GoValue) → NodeConfig → List (String × GoValue)
  | [], _ => []
  | (k, v) :: rest, nc => (k, processSimpleTemplate v nc) :: processTemplateMap rest nc

end

/-- The `distributed_lists` loop of `GenerateNodeConfigs` for node `i`. -/
def distributeLists (i count : Nat) :
    List (String × List GoValue) → List (String × GoValue) →
    Except String (List (String × GoValue))
  | [], config => .ok config
  | (listName, items) :: rest, config =>
    if items.length == 0 then distributeLists i count rest config
    else
      match collectStrideChecked listName items count items.length i with
      | .error e => .error e
      | .ok nodeItems =>
        let config := if nodeItems.length > 0 then
                        insertA config listName (.list nodeItems)
                      else config
        distributeLists i count rest config

/-- One iteration of the per-node loop of `metadata.GenerateNodeConfigs`. -/
def generateNodeConfig (cfg : NodesConfig) (deploymentID : String) (i : Nat) :
    Except String NodeConfig :=
  let base : NodeConfig :=
    { nodeID := deploymentID ++ "_node_" ++ toString i
      nodeIndex := i
      totalNodes := cfg.count
      deploymentID := deploymentID
      config := [] }
  let config := cfg.globalMetadata.foldl (fun m kv => insertA m kv.1 kv.2) []
  match distributeLists i cfg.count.toNat cfg.distributedLists config with
  | .error e => .error e
  | .ok config =>
    let config := cfg.configTemplate.foldl
      (fun m kv => insertA m kv.1 (processSimpleTemplate kv.2 { base with config := m }))
      config
    .ok { base with config := config }

/-- `metadata.GenerateNodeConfigs`. -/
def GenerateNodeConfigs (cfg : NodesConfig) (deploymentID : String) :
    Except String (List NodeConfig) :=
  match ValidateNodesConfig cfg with
  | .error e => .error e
  | .ok _ => (List.range cfg.count.toNat).mapM (generateNodeConfig cfg deploymentID)

/-- Split a character sequence on `/`, as Go `path.Clean` does with its
input (over characters, so that every step reduces definitionally). -/
def splitSlash : List Char → List (List Char)
  | [] => [[]]
  | c :: rest =>
    if c = '/' then [] :: splitSlash rest
    else
      match splitSlash rest with
      | seg :: segs => (c :: seg) :: segs
      | [] => [[c]]

/-- One step of Go `path.Clean` over a stack of output segments (held in
reverse): empty and `.` segments are dropped, `..` pops a non-`..` segment,
is dropped at the root of a rooted path, and is kept in a relative path. -/
def cleanPush (rooted : Bool) (out : List (List Char)) (seg : List Char) :
    List (List Char) :=
  if seg = [] || seg = ['.'] then out
  else if seg = ['.', '.'] then
    match out with
    | [] => if rooted then [] else [seg]
    | top :: rest => if top = ['.', '.'] then seg :: out else rest
  else seg :: out

/-- Go `filepath.Clean` for slash-separated paths (the Unix build). -/
def pathClean (p : String) : String :=
  if p == "" then "."
  else
    let cs := p.toList
    let rooted := cs.head? == some '/'
    let out := ((splitSlash cs).foldl (cleanPush rooted) []).reverse
    let body := List.intercalate ['/'] out
    if rooted then String.mk ('/' :: body)
    else if body = [] then "." else String.mk body

/-- Go `filepath.Join` on two elements: join the non-empty elements with the
separator, then `Clean`. -/
def filepathJoin (a b : String) : String :=
  if a == "" && b == "" then ""
  else if a == "" then pathClean b
  else if b == "" then pathClean a
  else pathClean (a ++ "/" ++ b)

/-- `p` resolves inside `dir` (equal to it or below it after cleaning). -/
def pathWithin (dir p : String) : Bool :=
  pathClean p == pathClean dir ||
    (pathClean dir ++ "/").toList.isPrefixOf (pathClean p).toList

/-- Tar entry type flags as distinguished by `extractAndParseConfig`. -/
inductive TarType where
  | reg
  | dir
  | other
deriving DecidableEq

/-- One entry of the uploaded client bundle archive. -/
structure TarEntry where
  name : String
  typeflag : TarType
  content : String
deriving DecidableEq

/-- What the extraction loop of `extractAndParseConfig` produced: the
in-memory `taskfly.yml` bytes, if seen, and the paths of the files written
to disk (each `filepath.Join(extractDir, header.Name)`). -/
structure ExtractResult where
  configData : Option String
  writtenFiles : List String
deriving DecidableEq

/-- The extraction loop and descriptor check of
`orchestrator.extractAndParseConfig` (the subsequent YAML parse and worker
bundle creation operate on the returned data and do not affect which paths
were written).  Note the loop joins `header.Name` onto `extractDir` and
writes there without any check that the resolved path stays inside
`extractDir`. -/
def extractAndParseConfig (extractDir : String) (entries : List TarEntry) :
    Except String ExtractResult :=
  let res := entries.foldl
    (fun (acc : ExtractResult) (e : TarEntry) =>
      let extractPath := filepathJoin extractDir e.name
      match e.typeflag with
      | .reg =>
        if e.name == "taskfly.yml" then { acc with configData := some e.content }
        else { acc with writtenFiles := acc.writtenFiles ++ [extractPath] }
      | _ => acc)
    { configData := none, writtenFiles := [] }
  if res.configData.isNone then .error "taskfly.yml not found in bundle"
  else .ok res

/-! ### Association-list lemmas -/

theorem lookupA_insertA {α : Type} (m : List (String × α)) (k k2 : String) (v : α) :
    lookupA (insertA m k v) k2 = if k2 = k then some v else lookupA m k2 := by
  induction m with
  | nil =>
    by_cases h : k2 = k
    · simp [insertA, lookupA, h]
    · simp only [insertA, lookupA]
      rw [if_neg (fun hh : k = k2 => h hh.symm), if_neg h]
  | cons kv rest ih =>
    simp only [insertA]
    by_cases hk : kv.1 = k
    · rw [if_pos hk]
      by_cases h2 : k2 = k
      · simp [lookupA, h2]
      · simp only [lookupA]
        rw [if_neg (fun hh : k = k2 => h2 hh.symm), if_neg h2,
            if_neg (fun hh : kv.1 = k2 => h2 (hh ▸ hk))]
    · rw [if_neg hk]
      by_cases h2 : kv.1 = k2
      · have hne : ¬ k2 = k := fun hh => hk (h2.trans hh)
        simp [lookupA, h2, hne]
      · simp [lookupA, h2, ih]

theorem lookupA_insertA_self {α : Type} (m : List (String × α)) (k : String) (v : α) :
    lookupA (insertA m k v) k = some v := by
  simp [lookupA_insertA]

theorem lookupA_insertA_ne {α : Type} (m : List (String × α)) (k k2 : String) (v : α)
    (h : k2 ≠ k) : lookupA (insertA m k v) k2 = lookupA m k2 := by
  simp [lookupA_insertA, h]

theorem lookupA_eraseA {α : Type} (m : List (String × α)) (k k2 : String) :
    lookupA (eraseA m k) k2 = if k2 = k then none else lookupA m k2 := by
  induction m with
  | nil =>
    by_cases h : k2 = k
    · simp [eraseA, lookupA, h]
    · simp [eraseA, lookupA, h]
  | cons kv rest ih =>
    simp only [eraseA]
    by_cases hk : kv.1 = k
    · rw [if_pos hk, ih]
      by_cases h2 : k2 = k
      · simp [h2]
      · rw [if_neg h2, if_neg h2]
        simp only [lookupA]
        rw [if_neg (fun hh : kv.1 = k2 => h2 (hh ▸ hk))]
    · rw [if_neg hk]
      by_cases h2 : kv.1 = k2
      · have hne : ¬ k2 = k := fun hh => hk (h2.trans hh)
        simp [lookupA, h2, hne]
      · simp [lookupA, h2, ih]

/-! ### Concrete fixtures used by counterexamples and witnesses -/

def depFixture : Deployment :=
  { id := "dep_1", status := statusRunning, cloudProvider := "local", totalNodes := 1,
    nodesCompleted := 0, nodesFailed := 0, bundlePath := "", config := [],
    createdAt := 0, updatedAt := 0, completedAt := none, errorMessage := "" }

def nodeFixture : Node :=
  { nodeID := "dep_1_node_0", nodeIndex := 0, deploymentID := "dep_1",
    status := nodeStatusBooting, ipAddress := "", instanceID := "", config := [],
    provisionToken := "pt_1", authToken := "", shouldShutdown := false,
    lastUpdate := 0, errorMessage := "", metrics := none }

def storeFixture : Store :=
  { deployments := [("dep_1", depFixture)]
    nodes := [("dep_1_node_0", nodeFixture)]
    nodesByDep := [("dep_1", ["dep_1_node_0"])]
    logs := []
    maxLogsPerDeployment := 10000 }

def nodeCompletedFixture : Node :=
  { nodeFixture with status := nodeStatusCompleted, authToken := "auth-dep_1_node_0" }

def depCompletedFixture : Deployment :=
  { depFixture with status := statusCompleted, nodesCompleted := 1, completedAt := some 2 }

def storeCompletedFixture : Store :=
  { deployments := [("dep_1", depCompletedFixture)]
    nodes := [("dep_1_node_0", nodeCompletedFixture)]
    nodesByDep := [("dep_1", ["dep_1_node_0"])]
    logs := []
    maxLogsPerDeployment := 10000 }

def depTerminatedFixture : Deployment :=
  { depFixture with status := statusTerminated, completedAt := some 2 }

def nodeTerminatedFixture : Node :=
  { nodeFixture with status := nodeStatusTerminated, authToken := "auth-dep_1_node_0" }

def storeTerminatedFixture : Store :=
  { deployments := [("dep_1", depTerminatedFixture)]
    nodes := [("dep_1_node_0", nodeTerminatedFixture)]
    nodesByDep := [("dep_1", ["dep_1_node_0"])]
    logs := []
    maxLogsPerDeployment := 10000 }

def logEntryFixture : LogEntry :=
  { timestamp := 1, nodeID := "dep_1_node_0", deploymentID := "dep_1",
    message := "hello", stream := "stdout" }

def storeWithLogFixture : Store :=
  { storeFixture with logs := [("dep_1", [logEntryFixture])] }

def nodePendingFixture : Node :=
  { nodeFixture with status := nodeStatusPending }

def storePendingFixture : Store :=
  { deployments := [("dep_1", { depFixture with status := statusProvisioning })]
    nodes := [("dep_1_node_0", nodePendingFixture)]
    nodesByDep := [("dep_1", ["dep_1_node_0"])]
    logs := []
    maxLogsPerDeployment := 10000 }

def logs1001 : List LogEntry :=
  (List.range 1001).map (fun k =>
    { timestamp := k + 1, nodeID := "dep_1_node_0", deploymentID := "dep_1",
      message := "m", stream := "stdout" })

def storeManyLogsFixture : Store :=
  { storeFixture with logs := [("dep_1", logs1001)] }

/-! ### Claim theorems -/

/-- C1: the spec states that a second `POST /api/v1/nodes/register` with an
already-used `provision_token` is rejected with 401 invalid-provision-token.
The handler never clears the provision token and never checks the node's
status, so re-registering with the same token succeeds again with 200:
starting from a node holding provision token `pt_1`, both the first and the
second registration return the 200 response. -/
theorem c1_second_registration_accepted :
    (registerNode storeFixture "pt_1" 1).1 =
      RegisterResponse.ok "auth-dep_1_node_0" "dep_1" "dep_1_node_0" ∧
    (registerNode (registerNode storeFixture "pt_1" 1).2 "pt_1" 2).1 =
      RegisterResponse.ok "auth-dep_1_node_0" "dep_1" "dep_1_node_0" :=
  ⟨rfl, rfl⟩

/-- C2 counterexample: a node whose status is `completed` is changed to
`running` by a later `POST /api/v1/nodes/status`, contradicting the claim
that no subsequent update changes a terminal node status. -/
theorem c2_status_update_demotes_completed_node :
    (updateNodeStatusHandler storeCompletedFixture "auth-dep_1_node_0"
        nodeStatusRunning "" 5).1 = StatusUpdateResponse.ok ∧
    (lookupA (updateNodeStatusHandler storeCompletedFixture "auth-dep_1_node_0"
        nodeStatusRunning "" 5).2.nodes "dep_1_node_0").map Node.status =
      some nodeStatusRunning ∧
    nodeCompletedFixture.status = nodeStatusCompleted ∧
    nodeStatusRunning ≠ nodeStatusCompleted :=
  ⟨rfl, rfl, rfl, by decide⟩

/-- C3 counterexample: a deployment already `terminated` is demoted to
`completed` by the completion summary when its node later reports
`completed` through `POST /api/v1/nodes/status`. -/
theorem c3_terminated_deployment_demoted :
    depTerminatedFixture.status = statusTerminated ∧
    (updateNodeStatusHandler storeTerminatedFixture "auth-dep_1_node_0"
        nodeStatusCompleted "" 5).1 = StatusUpdateResponse.ok ∧
    (lookupA (updateNodeStatusHandler storeTerminatedFixture "auth-dep_1_node_0"
        nodeStatusCompleted "" 5).2.deployments "dep_1").map Deployment.status =
      some statusCompleted ∧
    statusCompleted ≠ statusTerminated :=
  ⟨rfl, rfl, rfl, by decide⟩

/-- C5: the spec states that the controller rejects a bundle entry whose
resolved path escapes the working directory with `unsafe-archive-path`.
`extractAndParseConfig` performs no such check: a bundle containing the
entry `../evil` is processed without error and the file is written to
`/work/evil`, outside the working directory `/work/dep_1`. -/
theorem c5_traversal_entry_extracted_outside :
    extractAndParseConfig "/work/dep_1"
        [{ name := "../evil", typeflag := .reg, content := "x" },
         { name := "taskfly.yml", typeflag := .reg, content := "cfg" }] =
      .ok { configData := some "cfg", writtenFiles := ["/work/evil"] } ∧
    pathWithin "/work/dep_1" "/work/evil" = false :=
  ⟨rfl, rfl⟩

/-- C6 counterexample: after `DeleteDeployment` the stored log entries of the
deployment are still counted by the stats log count (the deployment record
itself is gone), contradicting the claim that the logs are removed with the
deployment. -/
theorem c6_logs_survive_delete :
    (deleteDeployment storeWithLogFixture "dep_1").map statsTotalLogs = .ok 1 ∧
    (deleteDeployment storeWithLogFixture "dep_1").map
        (fun s2 => lookupA s2.deployments "dep_1") = .ok none ∧
    (1 : Nat) ≠ 0 :=
  ⟨rfl, rfl, by decide⟩

/-- C7 counterexample: `provisionSingleNode` moves a freshly created node to
`booting` without issuing any auth token, so a node whose status is not
`pending` has an empty `auth_token`, contradicting the claimed iff. -/
theorem c7_booting_node_has_empty_auth_token :
    (lookupA (provisionSingleNode storePendingFixture nodePendingFixture
        (.ok { instanceID := "i-1", ipAddress := "10.0.0.1" }) false 3).nodes
        "dep_1_node_0").map Node.status = some nodeStatusBooting ∧
    (lookupA (provisionSingleNode storePendingFixture nodePendingFixture
        (.ok { instanceID := "i-1", ipAddress := "10.0.0.1" }) false 3).nodes
        "dep_1_node_0").map Node.authToken = some "" ∧
    nodeStatusBooting ≠ nodeStatusPending :=
  ⟨rfl, rfl, by decide⟩

set_option maxRecDepth 100000 in
/-- C9 counterexample: with 1001 stored entries and an explicit `limit = 0`,
`GetLogs` returns all 1001 entries rather than applying the claimed default
limit of 1000 (a zero limit disables the cap in the source). -/
theorem c9_limit_zero_returns_all_entries :
    getDeploymentLogs storeManyLogsFixture "dep_1" "" none (some 0) = .ok logs1001 ∧
    logs1001.length = 1001 ∧
    ¬ (1001 : Nat) ≤ 1000 :=
  ⟨rfl, rfl, by decide⟩

/-! ### Preservation lemmas for the heartbeat and provisioning paths -/

theorem lookupA_insertA_map {α β : Type} (f : α → β) (m : List (String × α))
    (k k2 : String) (v v0 : α) (h : lookupA m k = some v0) (hf : f v = f v0) :
    (lookupA (insertA m k v) k2).map f = (lookupA m k2).map f := by
  rw [lookupA_insertA]
  by_cases hk : k2 = k
  · subst hk
    rw [h]
    simp [hf]
  · simp [hk]

theorem nodes_checkDeploymentCompletion (s : Store) (d : String) (now : Nat) :
    (checkDeploymentCompletion s d now).nodes = s.nodes := by
  unfold checkDeploymentCompletion
  cases lookupA s.deployments d <;> rfl

theorem statusMap_updateNodeMetrics (s : Store) (d nid : String) (m : SystemMetrics)
    (now : Nat) (k : String) :
    (lookupA (tryOp s (updateNodeMetrics s d nid m now)).nodes k).map Node.status =
      (lookupA s.nodes k).map Node.status := by
  unfold tryOp updateNodeMetrics
  cases h : lookupA s.nodes nid with
  | none => rfl
  | some n =>
    by_cases hd : n.deploymentID ≠ d
    · simp [hd]
    · simp only [hd, if_false]
      exact lookupA_insertA_map Node.status s.nodes nid k _ n h rfl

theorem statusMap_updateNodeLastSeen (s : Store) (d nid : String)
    (now : Nat) (k : String) :
    (lookupA (tryOp s (updateNodeLastSeen s d nid now)).nodes k).map Node.status =
      (lookupA s.nodes k).map Node.status := by
  unfold tryOp updateNodeLastSeen
  cases h : lookupA s.nodes nid with
  | none => rfl
  | some n =>
    by_cases hd : n.deploymentID ≠ d
    · simp [hd]
    · simp only [hd, if_false]
      exact lookupA_insertA_map Node.status s.nodes nid k _ n h rfl

theorem heartbeat_terminal_spec (s : Store) (tok : String) (m : Option SystemMetrics)
    (now : Nat) (n : Node) (d : Deployment)
    (hfind : findNodeByAuthToken s tok = some (n, d))
    (hterm : isNodeTerminal n.status = true) :
    (nodeHeartbeat s tok m now).1 =
      .ok { status := "ok", shutdown := n.shouldShutdown } ∧
    ∀ k, (lookupA (nodeHeartbeat s tok m now).2.nodes k).map Node.status =
      (lookupA s.nodes k).map Node.status := by
  have hguard : (n.status != nodeStatusRunning && n.status != nodeStatusCompleted &&
      n.status != nodeStatusFailed && n.status != nodeStatusTerminated) = false := by
    have := hterm
    unfold isNodeTerminal nodeStatusCompleted nodeStatusFailed nodeStatusTerminated at this
    rcases (by simpa using this : (n.status = "completed" ∨ n.status = "failed") ∨
        n.status = "terminated") with (h | h) | h <;>
      simp [h, nodeStatusRunning, nodeStatusCompleted, nodeStatusFailed, nodeStatusTerminated]
  unfold nodeHeartbeat
  rw [hfind]
  simp only [hguard, Bool.false_eq_true, if_false]
  constructor
  · trivial
  · intro k
    cases m with
    | none =>
      simpa using statusMap_updateNodeLastSeen s d.id n.nodeID now k
    | some mv =>
      have h1 := statusMap_updateNodeMetrics s d.id n.nodeID mv now k
      have h2 := statusMap_updateNodeLastSeen
        (tryOp s (updateNodeMetrics s d.id n.nodeID mv now)) d.id n.nodeID now k
      simpa using h2.trans h1

/-- C2 (amended): the sticky-terminal rule holds for heartbeats: when the node
resolved by the auth token is in a terminal status, `POST /api/v1/nodes/heartbeat`
answers ok and changes no node's status.  (It does not hold for
`POST /api/v1/nodes/status`, which overwrites any status unconditionally —
see the counterexample.) -/
theorem c2_heartbeat_preserves_terminal_node_status
    (s : Store) (tok : String) (m : Option SystemMetrics) (now : Nat)
    (n : Node) (d : Deployment)
    (hfind : findNodeByAuthToken s tok = some (n, d))
    (hterm : isNodeTerminal n.status = true) :
    (nodeHeartbeat s tok m now).1 =
      .ok { status := "ok", shutdown := n.shouldShutdown } ∧
    ∀ k, (lookupA (nodeHeartbeat s tok m now).2.nodes k).map Node.status =
      (lookupA s.nodes k).map Node.status :=
  heartbeat_terminal_spec s tok m now n d hfind hterm

/-- Witness for C2: heartbeating a terminated node in a concrete store. -/
theorem c2_witness :
    (nodeHeartbeat storeTerminatedFixture "auth-dep_1_node_0" none 7).1 =
      .ok { status := "ok", shutdown := false } ∧
    (lookupA (nodeHeartbeat storeTerminatedFixture "auth-dep_1_node_0" none 7).2.nodes
        "dep_1_node_0").map Node.status = some nodeStatusTerminated := by
  have h := c2_heartbeat_preserves_terminal_node_status storeTerminatedFixture
    "auth-dep_1_node_0" none 7 nodeTerminatedFixture depTerminatedFixture rfl (by decide)
  exact ⟨h.1, (h.2 "dep_1_node_0").trans rfl⟩

/-- C8: a heartbeat for a node whose status is `completed` and whose
`should_shutdown` flag is false answers 200 with status ok and shutdown
false, and does not change any node's status (in particular the node stays
`completed`). -/
theorem c8_heartbeat_on_completed_node
    (s : Store) (tok : String) (m : Option SystemMetrics) (now : Nat)
    (n : Node) (d : Deployment)
    (hfind : findNodeByAuthToken s tok = some (n, d))
    (hstatus : n.status = nodeStatusCompleted)
    (hshut : n.shouldShutdown = false) :
    (nodeHeartbeat s tok m now).1 = .ok { status := "ok", shutdown := false } ∧
    (∀ k, (lookupA (nodeHeartbeat s tok m now).2.nodes k).map Node.status =
      (lookupA s.nodes k).map Node.status) ∧
    (lookupA s.nodes n.nodeID = some n →
      (lookupA (nodeHeartbeat s tok m now).2.nodes n.nodeID).map Node.status =
        some nodeStatusCompleted) := by
  have hterm : isNodeTerminal n.status = true := by
    simp [isNodeTerminal, hstatus, nodeStatusCompleted]
  have h := heartbeat_terminal_spec s tok m now n d hfind hterm
  refine ⟨?_, h.2, ?_⟩
  · rw [h.1, hshut]
  · intro hn
    rw [h.2 n.nodeID, hn, Option.map_some']
    rw [hstatus]

/-- Witness for C8: heartbeating a completed node in a concrete store. -/
theorem c8_witness :
    (nodeHeartbeat storeCompletedFixture "auth-dep_1_node_0" none 7).1 =
      .ok { status := "ok", shutdown := false } ∧
    (lookupA (nodeHeartbeat storeCompletedFixture "auth-dep_1_node_0" none 7).2.nodes
        "dep_1_node_0").map Node.status = some nodeStatusCompleted := by
  have h := c8_heartbeat_on_completed_node storeCompletedFixture
    "auth-dep_1_node_0" none 7 nodeCompletedFixture depCompletedFixture rfl rfl rfl
  exact ⟨h.1, h.2.2 rfl⟩

/-- C3 (amended): the completion summary keeps a terminal deployment
terminal, but not necessarily at the same terminal value: when every node is
counted completed or failed it overwrites the status with `completed` or
`failed` even if the deployment was already `terminated` (see the
counterexample); in every other branch a terminal status is left unchanged. -/
theorem c3_summary_keeps_terminal_deployment_terminal
    (s : Store) (depID : String) (now : Nat) (dep : Deployment)
    (hdep : lookupA s.deployments depID = some dep)
    (hterm : isDeploymentTerminal dep.status = true) :
    ∃ dep2, lookupA (checkDeploymentCompletion s depID now).deployments depID = some dep2 ∧
      isDeploymentTerminal dep2.status = true := by
  have hnp : (dep.status == statusProvisioning) = false := by
    unfold isDeploymentTerminal at hterm
    rcases (by simpa using hterm : (dep.status = "completed" ∨ dep.status = "failed") ∨
        dep.status = "terminated") with (h | h) | h <;>
      simp [h, statusProvisioning]
  unfold checkDeploymentCompletion
  rw [hdep]
  refine ⟨_, lookupA_insertA_self _ _ _, ?_⟩
  split
  · split <;> simp [isDeploymentTerminal, statusFailed, statusCompleted]
  · split
    · simp only [hnp, Bool.false_eq_true, if_false]
      simpa using hterm
    · simpa using hterm

/-- Witness for C3: the summary on a concrete store whose deployment is
already terminated and whose node is terminated. -/
theorem c3_witness :
    ∃ dep2, lookupA (checkDeploymentCompletion storeTerminatedFixture "dep_1" 9).deployments
        "dep_1" = some dep2 ∧ isDeploymentTerminal dep2.status = true :=
  c3_summary_keeps_terminal_deployment_terminal storeTerminatedFixture "dep_1" 9
    depTerminatedFixture rfl (by decide)

theorem lookupA_foldl_eraseA_of_none {α : Type} (ids : List String)
    (m : List (String × α)) (nid : String) (h : lookupA m nid = none) :
    lookupA (ids.foldl (fun acc k => eraseA acc k) m) nid = none := by
  induction ids generalizing m with
  | nil => exact h
  | cons a rest ih =>
    refine ih _ ?_
    rw [lookupA_eraseA]
    split
    · rfl
    · exact h

theorem lookupA_foldl_eraseA_mem {α : Type} (ids : List String)
    (m : List (String × α)) (nid : String) (h : nid ∈ ids) :
    lookupA (ids.foldl (fun acc k => eraseA acc k) m) nid = none := by
  induction ids generalizing m with
  | nil => cases h
  | cons a rest ih =>
    rcases List.mem_cons.mp h with h | h
    · subst h
      exact lookupA_foldl_eraseA_of_none rest _ nid (by rw [lookupA_eraseA]; simp)
    · exact ih _ h

/-- C6 (amended): `DeleteDeployment` removes the deployment record and every
node listed for it, in one store operation — but it does not touch the log
map, so the deployment's stored log entries (and their contribution to the
stats log count) survive until `ClearLogs`, which nothing calls. -/
theorem c6_delete_removes_records_not_logs
    (s : Store) (depID : String) (dep : Deployment)
    (hdep : lookupA s.deployments depID = some dep) :
    ∃ s2, deleteDeployment s depID = .ok s2 ∧
      lookupA s2.deployments depID = none ∧
      (∀ nid, nid ∈ (lookupA s.nodesByDep depID).getD [] → lookupA s2.nodes nid = none) ∧
      s2.logs = s.logs ∧
      statsTotalLogs s2 = statsTotalLogs s := by
  unfold deleteDeployment
  rw [hdep]
  simp only [Option.isNone_some, Bool.false_eq_true, if_false]
  cases hb : lookupA s.nodesByDep depID with
  | none =>
    refine ⟨_, rfl, ?_, ?_, rfl, rfl⟩
    · rw [lookupA_eraseA]
      simp
    · intro nid hnid
      simp [hb] at hnid
  | some ids =>
    refine ⟨_, rfl, ?_, ?_, rfl, rfl⟩
    · rw [lookupA_eraseA]
      simp
    · intro nid hnid
      exact lookupA_foldl_eraseA_mem ids s.nodes nid (by simpa using hnid)

/-- Witness for C6: deleting a concrete deployment with one stored log
entry. -/
theorem c6_witness :
    ∃ s2, deleteDeployment storeWithLogFixture "dep_1" = .ok s2 ∧
      lookupA s2.deployments "dep_1" = none ∧
      (∀ nid, nid ∈ (lookupA storeWithLogFixture.nodesByDep "dep_1").getD [] →
        lookupA s2.nodes nid = none) ∧
      s2.logs = storeWithLogFixture.logs ∧
      statsTotalLogs s2 = statsTotalLogs storeWithLogFixture :=
  c6_delete_removes_records_not_logs storeWithLogFixture "dep_1" depFixture rfl

theorem authMap_updateNodeStatus_ok (s s2 : Store) (d nid st : String)
    (em : Option String) (now : Nat)
    (h : updateNodeStatus s d nid st em now = .ok s2) (k : String) :
    (lookupA s2.nodes k).map Node.authToken = (lookupA s.nodes k).map Node.authToken := by
  unfold updateNodeStatus at h
  split at h
  · cases h
  · rename_i n hn
    split at h
    · cases h
    · cases em with
      | none =>
        cases h
        rw [nodes_checkDeploymentCompletion]
        exact lookupA_insertA_map Node.authToken s.nodes nid k _ n hn rfl
      | some msg =>
        cases h
        rw [nodes_checkDeploymentCompletion]
        exact lookupA_insertA_map Node.authToken s.nodes nid k _ n hn rfl

theorem authMap_updateNodeStatus_try (s : Store) (d nid st : String)
    (em : Option String) (now : Nat) (k : String) :
    (lookupA (tryOp s (updateNodeStatus s d nid st em now)).nodes k).map Node.authToken =
      (lookupA s.nodes k).map Node.authToken := by
  cases h : updateNodeStatus s d nid st em now with
  | error e => simp [tryOp, h]
  | ok s2 =>
    simp only [tryOp, h]
    exact authMap_updateNodeStatus_ok s s2 d nid st em now h k

theorem authMap_updateNodeInstanceInfo_try (s : Store) (d nid iid ip : String)
    (now : Nat) (k : String) :
    (lookupA (tryOp s (updateNodeInstanceInfo s d nid iid ip now)).nodes k).map Node.authToken =
      (lookupA s.nodes k).map Node.authToken := by
  unfold tryOp updateNodeInstanceInfo
  cases hn : lookupA s.nodes nid with
  | none => rfl
  | some n =>
    by_cases hd : n.deploymentID ≠ d
    · simp [hd]
    · simp only [hd, if_false]
      exact lookupA_insertA_map Node.authToken s.nodes nid k _ n hn rfl

/-- C7 (amended): an auth token appears exactly at registration:
`provisionSingleNode` (which drives a node through `provisioning`,
`booting`, and for the local provider `registering`) never changes any
node's `auth_token`, while a successful `registerNode` stores the non-empty
token `auth-<node_id>` on the registered node.  Hence `auth_token` being
non-empty coincides with the node having registered — not with
`status ≠ pending` as claimed (see the counterexample: a `booting` node has
an empty token). -/
theorem c7_auth_token_set_exactly_at_registration :
    (∀ (s : Store) (node : Node) (res : Except String InstanceInfo)
        (isLocal : Bool) (now : Nat) (k : String),
      (lookupA (provisionSingleNode s node res isLocal now).nodes k).map Node.authToken =
        (lookupA s.nodes k).map Node.authToken) ∧
    (∀ (s : Store) (tok : String) (now : Nat) (atk dp nid : String),
      (registerNode s tok now).1 = .ok atk dp nid →
      atk ≠ "" ∧
      (lookupA (registerNode s tok now).2.nodes nid).map Node.authToken = some atk) := by
  constructor
  · intro s node res isLocal now k
    unfold provisionSingleNode
    cases res with
    | error msg =>
      rw [authMap_updateNodeStatus_try, authMap_updateNodeStatus_try]
    | ok info =>
      cases isLocal with
      | false =>
        simp only [Bool.false_eq_true, if_false]
        rw [authMap_updateNodeStatus_try, authMap_updateNodeInstanceInfo_try,
            authMap_updateNodeStatus_try]
      | true =>
        simp only [if_true]
        rw [authMap_updateNodeStatus_try, authMap_updateNodeStatus_try,
            authMap_updateNodeInstanceInfo_try, authMap_updateNodeStatus_try]
  · intro s tok now atk dp nid h
    unfold registerNode at h ⊢
    cases hf : findNodeByProvisionToken s tok with
    | none =>
      simp only [hf] at h
      exact RegisterResponse.noConfusion h
    | some nd =>
      obtain ⟨node, dep⟩ := nd
      simp only [hf] at h ⊢
      cases ha : updateNodeAuthToken s dep.id node.nodeID ("auth-" ++ node.nodeID) now with
      | error e =>
        simp only [ha] at h
        exact RegisterResponse.noConfusion h
      | ok s1 =>
        simp only [ha] at h ⊢
        cases hs : updateNodeStatus s1 dep.id node.nodeID nodeStatusRegistering none now with
        | error e =>
          simp only [hs] at h
          exact RegisterResponse.noConfusion h
        | ok s2 =>
          simp only [hs] at h ⊢
          obtain ⟨h1, h2, h3⟩ := RegisterResponse.ok.inj h
          subst h1
          subst h3
          constructor
          · intro hempty
            have hlen := congrArg String.length hempty
            rw [String.length_append] at hlen
            have h5 : ("auth-" : String).length = 5 := rfl
            have h0 : ("" : String).length = 0 := rfl
            rw [h5, h0] at hlen
            omega
          · have hauth : (lookupA s1.nodes node.nodeID).map Node.authToken =
                some ("auth-" ++ node.nodeID) := by
              unfold updateNodeAuthToken at ha
              split at ha
              · cases ha
              · rename_i n0 hn
                split at ha
                · cases ha
                · cases ha
                  rw [lookupA_insertA_self]
                  rfl
            rw [authMap_updateNodeStatus_ok s1 s2 dep.id node.nodeID
                nodeStatusRegistering none now hs node.nodeID]
            exact hauth

/-- Witness for C7: the provisioning path on a concrete store leaves the
auth token empty, and the concrete registration stores `auth-dep_1_node_0`. -/
theorem c7_witness :
    ((lookupA (provisionSingleNode storePendingFixture nodePendingFixture
        (.ok { instanceID := "i-1", ipAddress := "10.0.0.1" }) false 3).nodes
        "dep_1_node_0").map Node.authToken =
      (lookupA storePendingFixture.nodes "dep_1_node_0").map Node.authToken) ∧
    ("auth-dep_1_node_0" ≠ "" ∧
      (lookupA (registerNode storeFixture "pt_1" 1).2.nodes "dep_1_node_0").map
          Node.authToken = some "auth-dep_1_node_0") := by
  constructor
  · exact c7_auth_token_set_exactly_at_registration.1 storePendingFixture
      nodePendingFixture (.ok { instanceID := "i-1", ipAddress := "10.0.0.1" }) false 3
      "dep_1_node_0"
  · exact c7_auth_token_set_exactly_at_registration.2 storeFixture "pt_1" 1
      "auth-dep_1_node_0" "dep_1" "dep_1_node_0" rfl

/-- C10: after any `AppendLogs` the per-deployment sequence holds at most
10,000 entries (the `NewStore` cap), and what is kept is exactly a suffix of
the old entries followed by the new ones — the `min (old+new) 10000` most
recent entries in append order, the oldest being dropped. -/
theorem c10_append_logs_cap
    (s : Store) (depID : String) (dep : Deployment) (newLogs : List LogEntry)
    (hdep : lookupA s.deployments depID = some dep)
    (hmax : s.maxLogsPerDeployment = 10000) :
    ∃ s2 r, appendLogs s depID newLogs = .ok s2 ∧
      lookupA s2.logs depID = some r ∧
      r.length = min (((lookupA s.logs depID).getD []).length + newLogs.length) 10000 ∧
      r.length ≤ 10000 ∧
      List.IsSuffix r (((lookupA s.logs depID).getD []) ++ newLogs) := by
  unfold appendLogs
  rw [hdep]
  simp only [Option.isNone_some, Bool.false_eq_true, if_false]
  refine ⟨_, _, rfl, lookupA_insertA_self _ _ _, ?_, ?_, ?_⟩
  · rw [hmax]
    split
    · rename_i hgt
      rw [List.length_drop, List.length_append] at *
      omega
    · rename_i hle
      rw [List.length_append] at *
      omega
  · rw [hmax]
    split
    · rw [List.length_drop]
      omega
    · rename_i hle
      rw [List.length_append] at *
      omega
  · split
    · exact List.drop_suffix _ _
    · exact List.suffix_refl _

/-- Witness for C10: appending one entry to a store already holding one. -/
theorem c10_witness :
    ∃ s2 r, appendLogs storeWithLogFixture "dep_1" [logEntryFixture] = .ok s2 ∧
      lookupA s2.logs "dep_1" = some r ∧
      r.length = min (((lookupA storeWithLogFixture.logs "dep_1").getD []).length + 1) 10000 ∧
      r.length ≤ 10000 ∧
      List.IsSuffix r (((lookupA storeWithLogFixture.logs "dep_1").getD []) ++
        [logEntryFixture]) :=
  c10_append_logs_cap storeWithLogFixture "dep_1" depFixture [logEntryFixture] rfl rfl

/-- C9 (amended): `GetLogs` filters by node when a node id is given and by
`timestamp ≥ since` when `since` is non-zero, and keeps at most the `limit`
most recent of the filtered entries when `limit > 0`; a non-positive `limit`
disables the cap and returns every filtered entry.  The HTTP handler
substitutes the default 1000 only when the limit query parameter is absent —
not when the caller supplies `limit = 0` (see the counterexample). -/
theorem c9_get_logs_filter_and_limit
    (s : Store) (depID nodeID : String) (since : Nat) (limit : Int) (dep : Deployment)
    (hdep : lookupA s.deployments depID = some dep) :
    ∃ r, getLogs s depID nodeID since limit = .ok r ∧
      (List.IsSuffix r (((lookupA s.logs depID).getD []).filter (logMatches nodeID since)) ∧
       (0 < limit → (r.length : Int) ≤ limit) ∧
       (limit ≤ 0 →
         r = ((lookupA s.logs depID).getD []).filter (logMatches nodeID since)) ∧
       (∀ e ∈ r, (nodeID = "" ∨ e.nodeID = nodeID) ∧ (since = 0 ∨ since ≤ e.timestamp))) ∧
      (∀ sinceP, getDeploymentLogs s depID nodeID sinceP none =
        getDeploymentLogs s depID nodeID sinceP (some 1000)) := by
  unfold getLogs
  rw [hdep]
  simp only [Option.isNone_some, Bool.false_eq_true, if_false]
  have hmem : ∀ e ∈ ((lookupA s.logs depID).getD []).filter (logMatches nodeID since),
      (nodeID = "" ∨ e.nodeID = nodeID) ∧ (since = 0 ∨ since ≤ e.timestamp) := by
    intro e he
    have hm := (List.mem_filter.mp he).2
    unfold logMatches at hm
    constructor
    · by_cases hn : nodeID = ""
      · exact Or.inl hn
      · refine Or.inr ?_
        by_cases hen : e.nodeID = nodeID
        · exact hen
        · exfalso
          simp [hn, hen, bne] at hm
    · by_cases hs : since = 0
      · exact Or.inl hs
      · refine Or.inr ?_
        by_cases ht : e.timestamp < since
        · exfalso
          simp [hs, ht, bne] at hm
        · omega
  split
  · rename_i hcap
    simp only [Bool.and_eq_true, decide_eq_true_eq] at hcap
    refine ⟨_, rfl, ⟨List.drop_suffix _ _, ?_, ?_, ?_⟩, fun sinceP => rfl⟩
    · intro hpos
      rw [List.length_drop]
      omega
    · intro hnonpos
      omega
    · intro e he
      exact hmem e ((List.drop_suffix _ _).subset he)
  · rename_i hcap
    refine ⟨_, rfl, ⟨List.suffix_refl _, ?_, fun _ => rfl, hmem⟩, fun sinceP => rfl⟩
    intro hpos
    simp only [Bool.and_eq_true, decide_eq_true_eq, not_and] at hcap
    have := hcap (by omega)
    omega

/-- Witness for C9: a concrete query with a positive limit. -/
theorem c9_witness :
    ∃ r, getLogs storeWithLogFixture "dep_1" "" 0 5 = .ok r ∧
      (List.IsSuffix r
        (((lookupA storeWithLogFixture.logs "dep_1").getD []).filter (logMatches "" 0)) ∧
       (0 < (5 : Int) → (r.length : Int) ≤ 5) ∧
       ((5 : Int) ≤ 0 →
         r = ((lookupA storeWithLogFixture.logs "dep_1").getD []).filter (logMatches "" 0)) ∧
       (∀ e ∈ r, ("" = "" ∨ e.nodeID = "") ∧ ((0 : Nat) = 0 ∨ 0 ≤ e.timestamp))) ∧
      (∀ sinceP, getDeploymentLogs storeWithLogFixture "dep_1" "" sinceP none =
        getDeploymentLogs storeWithLogFixture "dep_1" "" sinceP (some 1000)) :=
  c9_get_logs_filter_and_limit storeWithLogFixture "dep_1" "" 0 5 depFixture rfl

theorem collectStrideChecked_spec (name : String) (items : List GoValue) (c : Nat)
    (hsimple : ∀ v ∈ items, isSimpleValue v = true) :
    ∀ fuel idx, items.length ≤ idx + fuel * c →
      ∃ L, collectStrideChecked name items c fuel idx = .ok L ∧
        ∀ k, L.get? k = items.get? (idx + k * c) := by
  intro fuel
  induction fuel with
  | zero =>
    intro idx hle
    refine ⟨[], rfl, fun k => ?_⟩
    have hidx : items.length ≤ idx := by simpa using hle
    have hnone : items.get? (idx + k * c) = none :=
      List.get?_eq_none.mpr (le_trans hidx (Nat.le_add_right _ _))
    simp only [List.get?_nil]
    exact hnone.symm
  | succ fuel ih =>
    intro idx hle
    by_cases h : idx < items.length
    · have hs := hsimple (items.get ⟨idx, h⟩) (items.get_mem idx h)
      obtain ⟨L1, hL1, hget⟩ := ih (idx + c) (by rw [Nat.succ_mul] at hle; omega)
      refine ⟨items.get ⟨idx, h⟩ :: L1, ?_, ?_⟩
      · unfold collectStrideChecked
        rw [dif_pos h]
        simp only [hs, if_true, hL1]
      · intro k
        cases k with
        | zero =>
          simp [Nat.zero_mul, List.get?_eq_get h]
        | succ k =>
          simp only [List.get?_cons_succ]
          rw [hget k]
          congr 1
          rw [Nat.succ_mul]
          omega
    · refine ⟨[], ?_, fun k => ?_⟩
      · unfold collectStrideChecked
        rw [dif_neg h]
      · have hidx : items.length ≤ idx := Nat.le_of_not_lt h
        have hnone : items.get? (idx + k * c) = none :=
          List.get?_eq_none.mpr (le_trans hidx (Nat.le_add_right _ _))
        simp only [List.get?_nil]
        exact hnone.symm

theorem distributeLists_spec (i c : Nat) (hc : 0 < c)
    (lists : List (String × List GoValue))
    (hsimple : ∀ kv ∈ lists, ∀ v ∈ kv.2, isSimpleValue v = true)
    (hnodup : (lists.map Prod.fst).Nodup) :
    ∀ config, ∃ cfg2, distributeLists i c lists config = .ok cfg2 ∧
      (∀ name, (∀ kv ∈ lists, kv.1 ≠ name) → lookupA cfg2 name = lookupA config name) ∧
      (∀ name values, lookupA lists name = some values → values ≠ [] →
        ∃ L, (∀ k, L.get? k = values.get? (i + k * c)) ∧
          lookupA cfg2 name =
            (if L.length > 0 then some (.list L) else lookupA config name)) := by
  induction lists with
  | nil =>
    intro config
    refine ⟨config, rfl, fun name _ => rfl, fun name values hname _ => ?_⟩
    simp [lookupA] at hname
  | cons kv rest ih =>
    obtain ⟨nm, items⟩ := kv
    have hsimple0 : ∀ v ∈ items, isSimpleValue v = true := hsimple (nm, items) (by simp)
    have hsimple1 : ∀ kv ∈ rest, ∀ v ∈ kv.2, isSimpleValue v = true :=
      fun kv hkv => hsimple kv (List.mem_cons_of_mem _ hkv)
    have hnodup0 : (nm :: rest.map Prod.fst).Nodup := by simpa using hnodup
    have hhead : nm ∉ rest.map Prod.fst := (List.nodup_cons.mp hnodup0).1
    have hnodup1 : (rest.map Prod.fst).Nodup := (List.nodup_cons.mp hnodup0).2
    intro config
    by_cases hempty : items.length = 0
    · obtain ⟨cfg2, hrec, hc1, hc2⟩ := ih hsimple1 hnodup1 config
      refine ⟨cfg2, ?_, ?_, ?_⟩
      · unfold distributeLists
        simp only [hempty]
        exact hrec
      · intro name hname
        exact hc1 name (fun kv hkv => hname kv (List.mem_cons_of_mem _ hkv))
      · intro name values hname hv
        unfold lookupA at hname
        by_cases hnm : nm = name
        · rw [if_pos hnm] at hname
          exfalso
          apply hv
          have : items = [] := List.length_eq_zero.mp hempty
          cases hname
          exact this
        · rw [if_neg hnm] at hname
          exact hc2 name values hname hv
    · have hcond : items.length ≤ i + items.length * c :=
        le_trans (Nat.le_mul_of_pos_right _ hc) (Nat.le_add_left _ _)
      obtain ⟨L0, hL0, hL0get⟩ :=
        collectStrideChecked_spec nm items c hsimple0 items.length i hcond
      obtain ⟨cfg2, hrec, hc1, hc2⟩ := ih hsimple1 hnodup1
        (if L0.length > 0 then insertA config nm (.list L0) else config)
      refine ⟨cfg2, ?_, ?_, ?_⟩
      · unfold distributeLists
        rw [if_neg (by simp [hempty]), hL0]
        exact hrec
      · intro name hname
        have hnm : nm ≠ name := hname (nm, items) (by simp)
        rw [hc1 name (fun kv hkv => hname kv (List.mem_cons_of_mem _ hkv))]
        split
        · exact lookupA_insertA_ne config nm name _ (fun h => hnm h.symm)
        · rfl
      · intro name values hname hv
        unfold lookupA at hname
        by_cases hnm : nm = name
        · rw [if_pos hnm] at hname
          have hvals : items = values := by cases hname; rfl
          subst hvals
          subst hnm
          refine ⟨L0, hL0get, ?_⟩
          have hout : lookupA cfg2 nm =
              lookupA (if L0.length > 0 then insertA config nm (.list L0) else config) nm := by
            apply hc1
            intro kv hkv heq
            exact hhead (by rw [← heq]; exact List.mem_map_of_mem Prod.fst hkv)
          rw [hout]
          split
          · rw [lookupA_insertA_self]
          · rfl
        · rw [if_neg hnm] at hname
          obtain ⟨L, hLget, hLeq⟩ := hc2 name values hname hv
          refine ⟨L, hLget, ?_⟩
          rw [hLeq]
          split
          · rfl
          · split
            · exact lookupA_insertA_ne config nm name _ (fun h => hnm h.symm)
            · rfl

theorem lookupA_mem {α : Type} (m : List (String × α)) (k : String) (v : α)
    (h : lookupA m k = some v) : (k, v) ∈ m := by
  induction m with
  | nil => cases h
  | cons kv rest ih =>
    unfold lookupA at h
    by_cases hk : kv.1 = k
    · rw [if_pos hk] at h
      cases h
      have hkv : (k, kv.2) = kv := by
        rw [← hk]
      rw [hkv]
      exact List.mem_cons_self _ _
    · rw [if_neg hk] at h
      exact List.mem_cons_of_mem _ (ih h)

theorem lookupA_foldl_preserve {β : Type} (l : List β) (name : String)
    (f : List (String × GoValue) → β → List (String × GoValue))
    (hf : ∀ m kv, kv ∈ l → lookupA (f m kv) name = lookupA m name) :
    ∀ m0, lookupA (l.foldl f m0) name = lookupA m0 name := by
  induction l with
  | nil => intro m0; rfl
  | cons kv rest ih =>
    intro m0
    simp only [List.foldl_cons]
    rw [ih (fun m kv2 hkv2 => hf m kv2 (List.mem_cons_of_mem _ hkv2))]
    exact hf m0 kv (by simp)

theorem mapM_ok_of_all {α β : Type} (l : List α) (f : α → Except String β)
    (h : ∀ a ∈ l, ∃ b, f a = .ok b) :
    ∃ bs, l.mapM f = .ok bs ∧ bs.length = l.length ∧
      ∀ i (hi : i < l.length), ∃ hb : i < bs.length,
        f (l.get ⟨i, hi⟩) = .ok (bs.get ⟨i, hb⟩) := by
  induction l with
  | nil => exact ⟨[], rfl, rfl, fun i hi => absurd hi (by simp)⟩
  | cons a rest ih =>
    obtain ⟨b, hb⟩ := h a (by simp)
    obtain ⟨bs, hbs, hlen, hidx⟩ := ih (fun x hx => h x (List.mem_cons_of_mem _ hx))
    refine ⟨b :: bs, ?_, by simp [hlen], ?_⟩
    · rw [List.mapM_cons, hb, hbs]
      rfl
    · intro i hi
      cases i with
      | zero => exact ⟨by simp, hb⟩
      | succ i =>
        obtain ⟨hbi, hfi⟩ := hidx i (by simpa using hi)
        exact ⟨by simpa using hbi, hfi⟩

/-- C4: for a valid nodes block (`count > 0`, non-empty distributed lists of
simple values), node config generation assigns to node `i` under each
distributed list name exactly the values at positions `i`, `i+count`,
`i+2·count`, … of that list, in order (the produced list `L` satisfies
`L.get? k = values.get? (i + k·count)` for every `k`), stored as a list
value; the key is absent when no position falls to this node.  The name is
assumed not to collide with global metadata or template keys, which are
written to the same config map. -/
theorem c4_distributed_list_stride_partition
    (cfg : NodesConfig) (depID name : String) (values : List GoValue) (i : Nat)
    (hc : 0 < cfg.count)
    (hne : ∀ kv ∈ cfg.distributedLists, kv.2 ≠ [])
    (hsimple : ∀ kv ∈ cfg.distributedLists, ∀ v ∈ kv.2, isSimpleValue v = true)
    (hnodup : (cfg.distributedLists.map Prod.fst).Nodup)
    (hname : lookupA cfg.distributedLists name = some values)
    (hgm : ∀ kv ∈ cfg.globalMetadata, kv.1 ≠ name)
    (htm : ∀ kv ∈ cfg.configTemplate, kv.1 ≠ name)
    (hi : i < cfg.count.toNat) :
    ∃ configs, GenerateNodeConfigs cfg depID = .ok configs ∧
      configs.length = cfg.count.toNat ∧
      ∃ (hlen : i < configs.length) (L : List GoValue),
        (∀ k, L.get? k = values.get? (i + k * cfg.count.toNat)) ∧
        lookupA (configs.get ⟨i, hlen⟩).config name =
          (if L.length > 0 then some (GoValue.list L) else none) := by
  have hcpos : 0 < cfg.count.toNat := by omega
  have hvalid : ValidateNodesConfig cfg = .ok () := by
    unfold ValidateNodesConfig
    rw [if_neg (by omega : ¬ cfg.count ≤ 0)]
    have hfind : cfg.distributedLists.find? (fun kv => kv.2.length == 0) = none := by
      rw [List.find?_eq_none]
      intro kv hkv
      have := hne kv hkv
      simp [List.length_eq_zero, this]
    rw [hfind]
  have hgen : ∀ j, ∃ b, generateNodeConfig cfg depID j = .ok b := by
    intro j
    obtain ⟨cfg2, hrec, _, _⟩ := distributeLists_spec j cfg.count.toNat hcpos
      cfg.distributedLists hsimple hnodup
      (cfg.globalMetadata.foldl (fun m kv => insertA m kv.1 kv.2) [])
    refine ⟨{ nodeID := depID ++ "_node_" ++ toString j, nodeIndex := j,
              totalNodes := cfg.count, deploymentID := depID,
              config := cfg.configTemplate.foldl (fun m kv => insertA m kv.1
                (processSimpleTemplate kv.2
                  { nodeID := depID ++ "_node_" ++ toString j, nodeIndex := j,
                    totalNodes := cfg.count, deploymentID := depID, config := m })) cfg2 }, ?_⟩
    unfold generateNodeConfig
    simp only [hrec]
  obtain ⟨configs, hmapM, hlen, hidx⟩ := mapM_ok_of_all (List.range cfg.count.toNat)
    (generateNodeConfig cfg depID) (fun a _ => hgen a)
  have hmain : GenerateNodeConfigs cfg depID = .ok configs := by
    unfold GenerateNodeConfigs
    rw [hvalid]
    exact hmapM
  have hclen : configs.length = cfg.count.toNat := by
    rw [hlen, List.length_range]
  refine ⟨configs, hmain, hclen, ?_⟩
  have hb : i < configs.length := by rw [hclen]; exact hi
  refine ⟨hb, ?_⟩
  -- the concrete per-node computation for node i
  obtain ⟨cfg2, hrec, hpres, hlists⟩ := distributeLists_spec i cfg.count.toNat hcpos
    cfg.distributedLists hsimple hnodup
    (cfg.globalMetadata.foldl (fun m kv => insertA m kv.1 kv.2) [])
  have hv : values ≠ [] := hne (name, values) (lookupA_mem _ _ _ hname)
  obtain ⟨L, hLget, hLeq⟩ := hlists name values hname hv
  refine ⟨L, hLget, ?_⟩
  have hbuild : generateNodeConfig cfg depID i = .ok
      { nodeID := depID ++ "_node_" ++ toString i, nodeIndex := i,
        totalNodes := cfg.count, deploymentID := depID,
        config := cfg.configTemplate.foldl (fun m kv => insertA m kv.1
          (processSimpleTemplate kv.2
            { nodeID := depID ++ "_node_" ++ toString i, nodeIndex := i,
              totalNodes := cfg.count, deploymentID := depID, config := m })) cfg2 } := by
    unfold generateNodeConfig
    simp only [hrec]
  obtain ⟨hbi, hfi⟩ := hidx i (by rw [List.length_range]; exact hi)
  rw [List.get_range] at hfi
  have hrecord := Except.ok.inj (hbuild.symm.trans hfi)
  rw [← hrecord]
  have htfold : lookupA (cfg.configTemplate.foldl (fun m kv => insertA m kv.1
      (processSimpleTemplate kv.2
        { nodeID := depID ++ "_node_" ++ toString i, nodeIndex := i,
          totalNodes := cfg.count, deploymentID := depID, config := m })) cfg2) name =
      lookupA cfg2 name := by
    refine lookupA_foldl_preserve cfg.configTemplate name _ ?_ cfg2
    intro m kv hkv
    exact lookupA_insertA_ne m kv.1 name _ (fun he => (htm kv hkv) he.symm)
  have hgfold : lookupA (cfg.globalMetadata.foldl
      (fun m kv => insertA m kv.1 kv.2) []) name = none := by
    have := lookupA_foldl_preserve cfg.globalMetadata name
      (fun m kv => insertA m kv.1 kv.2)
      (fun m kv hkv => lookupA_insertA_ne m kv.1 name _ (fun he => (hgm kv hkv) he.symm)) []
    rw [this]
    rfl
  show lookupA _ name = _
  rw [htfold, hLeq, hgfold]

def cfgStrideFixture : NodesConfig :=
  { count := 3
    globalMetadata := []
    distributedLists := [("items",
      [.str "a", .str "b", .str "c", .str "d", .str "e", .str "f", .str "g"])]
    configTemplate := [] }

/-- Witness for C4: `count = 3` with the list `[a,b,c,d,e,f,g]` gives node 0
the stride slice, and the full generation yields `[a,d,g]`, `[b,e]`,
`[c,f]` for the three nodes. -/
theorem c4_witness :
    (∃ configs, GenerateNodeConfigs cfgStrideFixture "dep" = .ok configs ∧
      configs.length = cfgStrideFixture.count.toNat ∧
      ∃ (hlen : 0 < configs.length) (L : List GoValue),
        (∀ k, L.get? k =
          [GoValue.str "a", .str "b", .str "c", .str "d", .str "e", .str "f",
            .str "g"].get? (0 + k * cfgStrideFixture.count.toNat)) ∧
        lookupA (configs.get ⟨0, hlen⟩).config "items" =
          (if L.length > 0 then some (GoValue.list L) else none)) ∧
    (GenerateNodeConfigs cfgStrideFixture "dep").map
        (fun cs => cs.map (fun c => lookupA c.config "items")) =
      .ok [some (.list [.str "a", .str "d", .str "g"]),
           some (.list [.str "b", .str "e"]),
           some (.list [.str "c", .str "f"])] := by
  constructor
  · exact c4_distributed_list_stride_partition cfgStrideFixture "dep" "items"
      [.str "a", .str "b", .str "c", .str "d", .str "e", .str "f", .str "g"] 0
      (by decide)
      (by intro kv hkv; rw [List.mem_singleton.mp hkv]; simp)
      (by
        intro kv hkv
        rw [List.mem_singleton.mp hkv]
        intro v hv
        simp only [List.mem_cons, List.not_mem_nil, or_false] at hv
        rcases hv with h | h | h | h | h | h | h <;> subst h <;> rfl)
      (by decide)
      rfl
      (by intro kv hkv; cases hkv)
      (by intro kv hkv; cases hkv)
      (by decide)
  · rfl
